import Mathlib

/-!
Verification of the Response Capture Engine of the claude-assist MCP server.

The development shallowly embeds the TypeScript sources:
  * `src/utils/applescript.ts` — `runAppleScript` (bounded retry loop with
    validation and error classification) and `escapeAppleScriptString`;
  * `src/tools/claude-desktop.ts` — `askClaude` (validation, clipboard
    save/restore, prompt submission, polling), `pollForClaudeResponse`
    (the stability poller) and `extractClaudeResponse` (the reply extractor).

Strings are modelled as `List Char`.  The OS side (osascript execution,
clipboard, the accessibility tree) is abstracted by oracles: an execution
oracle `Nat → ExecOutcome` gives each underlying attempt its outcome, and a
sampler oracle `Nat → SampleResult` gives each poll tick the text the
accessibility dump produced (`SampleResult.ok`) or the error the script
runner threw (`SampleResult.err`).  AppleScript string-literal semantics
(`set the clipboard to "<escaped>"`) are modelled by `appleScriptUnquote`.

Time model of the poll loop: sampling is instantaneous and the loop sleeps
exactly `interval` ms per iteration, so iteration k starts at elapsed time
k * interval and the loop admits exactly the iterations with
k * interval < timeout, i.e. `numTicks timeout interval` many.
-/

/-- Characters of a string literal. -/
def str (s : String) : List Char := s.data

/-- Whitespace for the purposes of JS `String.prototype.trim`. -/
def isSpaceChar (c : Char) : Bool := c = ' ' || c = '\n' || c = '\t' || c = '\r'

/-- JS `s.trim()`. -/
def trimList (s : List Char) : List Char :=
  ((s.dropWhile isSpaceChar).reverse.dropWhile isSpaceChar).reverse

/-- JS `s.replace(/\r\n/g, '\n').replace(/\r/g, '\n')`: every CRLF pair
collapses to one LF and every remaining CR becomes LF. -/
def normalizeNewlines : List Char → List Char
  | [] => []
  | '\r' :: '\n' :: rest => '\n' :: normalizeNewlines rest
  | '\r' :: rest => '\n' :: normalizeNewlines rest
  | c :: rest => c :: normalizeNewlines rest

/-- JS `hay.indexOf(needle)`, as `Option Nat` instead of `-1`. -/
def indexOfSub : List Char → List Char → Option Nat
  | s, m =>
    if m.isPrefixOf s then some 0
    else
      match s with
      | [] => none
      | _ :: t => (indexOfSub t m).map (· + 1)

/-- JS `hay.includes(needle)`. -/
def containsSub (s m : List Char) : Bool := (indexOfSub s m).isSome

/-- The error codes of `src/utils/errors.ts` that the modelled paths produce. -/
inductive ErrCode where
  | VALIDATION_FAILED
  | INVALID_INPUT
  | APPLESCRIPT_EXECUTION_FAILED
  | APPLESCRIPT_TIMEOUT
  | APPLESCRIPT_PERMISSION_DENIED
  | CLAUDE_NOT_RUNNING
  | CLAUDE_WINDOW_NOT_FOUND
  deriving DecidableEq, Repr

/-- An error surfaced by the engine: its classification code and message. -/
structure ModelError where
  code : ErrCode
  message : List Char
  deriving DecidableEq, Repr

/-- The character-escaping pass of `escapeAppleScriptString`:
`.replace(/\\/g, '\\\\').replace(/"/g, '\\"')` (backslashes doubled first,
then double quotes escaped — equivalent to this single pass). -/
def escapeChars : List Char → List Char
  | [] => []
  | c :: rest =>
    if c = '\\' then '\\' :: '\\' :: escapeChars rest
    else if c = '"' then '\\' :: '"' :: escapeChars rest
    else c :: escapeChars rest

/-- `String too long (n chars, max 10000)`. -/
def stringTooLongMessage (n : Nat) : List Char :=
  str "String too long (" ++ (Nat.repr n).data ++ str " chars, max 10000)"

/-- `escapeAppleScriptString` (src/utils/applescript.ts): rejects strings
longer than the hardcoded `maxLength = 10000` with an `INVALID_INPUT`
AppleScriptError, otherwise escapes backslashes and double quotes. -/
def escapeAppleScriptString (s : List Char) : Except ModelError (List Char) :=
  if 10000 < s.length then
    Except.error ⟨ErrCode.INVALID_INPUT, stringTooLongMessage s.length⟩
  else Except.ok (escapeChars s)

/-- AppleScript string-literal semantics: how osascript reads back a `"..."`
literal body.  `\\`, `\"`, `\n`, `\r`, `\t` are the recognised escapes; any
other escaped character stands for itself. -/
def appleScriptUnquote : List Char → List Char
  | [] => []
  | [c] => [c]
  | c :: d :: rest =>
    if c = '\\' then
      (if d = 'n' then '\n' else if d = 'r' then '\r' else if d = 't' then '\t' else d)
        :: appleScriptUnquote rest
    else c :: appleScriptUnquote (d :: rest)

/-! ## Reply Extractor (`extractClaudeResponse`, src/tools/claude-desktop.ts) -/

/-- The chrome/UI marker strings of `extractClaudeResponse`, in source order. -/
def uiElements : List (List Char) :=
  [str "Claude can make mistakes",
   str "Please double-check responses",
   str "Reply to Claude...",
   str "Chat controls",
   str "Smart, efficient model",
   str "No content added yet",
   str "Copy",
   str "Share",
   str "Edit",
   str "More",
   str "Regenerate",
   str "Continue generating"]

/-- One step of the source loop finding the earliest UI-element occurrence. -/
def uiFoldStep (s : List Char) (acc : Nat) (ui : List Char) : Nat :=
  match indexOfSub s ui with
  | some idx => if idx < acc then idx else acc
  | none => acc

/-- The fold over a marker list, accumulator exposed for the proofs. -/
def uiFold (s : List Char) (L : List (List Char)) (acc : Nat) : Nat :=
  L.foldl (uiFoldStep s) acc

/-- `firstUIElementIndex` of the source: the least index at which any UI
marker occurs in `s`, defaulting to `s.length`. -/
def firstUIElementIndex (s : List Char) : Nat := uiFold s uiElements s.length

/-- The truncation step of the prompt-localization path: cut the candidate at
the earliest UI marker (and trim), or keep it whole when no marker occurs. -/
def truncateAtUI (s : List Char) : List Char :=
  if firstUIElementIndex s < s.length then trimList (s.take (firstUIElementIndex s))
  else s

/-- `fullText` after the newline normalization and trim of the source. -/
def cleanText (t : List Char) : List Char := trimList (normalizeNewlines t)

/-- The candidate computed once the prompt was located at index `i` of the
cleaned text: everything after the prompt, trimmed, truncated at the earliest
UI marker. -/
def promptPathResult (cleaned prompt : List Char) (i : Nat) : List Char :=
  truncateAtUI (trimList (cleaned.drop (i + prompt.length)))

/-- The fallback of `extractClaudeResponse`: return the whole cleaned text
when it is longer than 50 characters and is not the empty-state string. -/
def fullTextFallback (cleaned : List Char) : Option (List Char) :=
  if 50 < cleaned.length ∧ containsSub cleaned (str "No content added yet") = false then
    some cleaned
  else none

/-- `extractClaudeResponse(fullText, prompt)` of src/tools/claude-desktop.ts. -/
def extractClaudeResponse (fullText prompt : List Char) : Option (List Char) :=
  if fullText = [] then none
  else if (str "Error:").isPrefixOf fullText then none
  else
    match indexOfSub (cleanText fullText) prompt with
    | some promptIndex =>
      if promptPathResult (cleanText fullText) prompt promptIndex ≠ [] then
        some (promptPathResult (cleanText fullText) prompt promptIndex)
      else fullTextFallback (cleanText fullText)
    | none => fullTextFallback (cleanText fullText)

/-! ## Stability Poller (`pollForClaudeResponse`, src/tools/claude-desktop.ts) -/

/-- Outcome of one poll tick as delivered by the script runner: the dump text
the sampling script returned, or the error the runner threw. -/
inductive SampleResult where
  | ok (text : List Char)
  | err (message : List Char)
  deriving DecidableEq, Repr

/-- How the poll loop exited: returned a stable reply from inside the loop
(`done`), broke out on a thrown process-gone error (`aborted`), exhausted the
overall timeout (`timedOut`), or was skipped by the environment flag
(`skipped`). -/
inductive PollExitKind where
  | done
  | aborted
  | timedOut
  | skipped
  deriving DecidableEq, Repr

/-- Result of a poll session: the string handed to the caller, how the loop
exited, how many ticks ran, and the final `lastResponseText`. -/
structure PollResult where
  result : List Char
  exitKind : PollExitKind
  ticksUsed : Nat
  lastSeen : List Char
  deriving DecidableEq, Repr

/-- JS truthiness of the extractor result: an empty string is falsy, so the
poller treats `some []` exactly like `none`. -/
def toTruthy : Option (List Char) → Option (List Char)
  | some [] => none
  | x => x

/-- The typing-indicator test the poller applies to the raw sample text. -/
def typingIndicatorPresent (t : List Char) : Bool :=
  containsSub t (str "▍") || containsSub t (str "Claude is typing") ||
    containsSub t (str "Thinking")

/-- The fallback sentinel returned when the poller times out with no
candidate (template literal of the source, prompt interpolated). -/
def timeoutFallbackMessage (prompt : List Char) : List Char :=
  str "Message sent to Claude Desktop successfully. \n\nNote: Due to Claude Desktop\x27s architecture, responses cannot be read programmatically through this MCP integration. \n\nThe prompt \"" ++
    prompt ++
    str "\" has been sent and Claude should be responding in the desktop app. Please check the Claude Desktop window directly for the response.\n\nThis is a known limitation of automating Electron-based applications."

/-- The code after the poll loop (shared by the timeout and break exits):
return `lastResponseText` when non-empty, else the fallback sentinel. -/
def pollFinish (prompt last : List Char) (kind : PollExitKind) (ticks : Nat) : PollResult :=
  if last = [] then ⟨timeoutFallbackMessage prompt, kind, ticks, last⟩
  else ⟨last, kind, ticks, last⟩

/-- Number of loop iterations: the k with k * interval < timeout
(= ⌈timeout / interval⌉ for interval > 0; an interval of 0, which would spin
forever in real time, is outside the model). -/
def numTicks (timeout interval : Nat) : Nat := (timeout + interval - 1) / interval

/-- The body of the `while (Date.now() - startTime < options.timeout)` loop,
fuel = remaining iterations.  State: `tick` (index fed to the sampler),
`stable` (= `stableCount`), `last` (= `lastResponseText`). -/
def pollLoop (sampler : Nat → SampleResult) (prompt : List Char) (req : Nat) :
    Nat → Nat → Nat → List Char → PollResult
  | 0, tick, _, last => pollFinish prompt last PollExitKind.timedOut tick
  | fuel + 1, tick, stable, last =>
    match sampler tick with
    | SampleResult.err msg =>
      -- the catch block: break early only when the THROWN message mentions
      -- the process being gone; otherwise a no-op tick
      if containsSub msg (str "Claude process not found") then
        pollFinish prompt last PollExitKind.aborted (tick + 1)
      else pollLoop sampler prompt req fuel (tick + 1) stable last
    | SampleResult.ok currentText =>
      let typing := typingIndicatorPresent currentText
      match toTruthy (extractClaudeResponse currentText prompt) with
      | some r =>
        if r = last then
          -- response unchanged: bump stableCount, return when stable enough
          -- and no indicator is present; the later indicator check resets
          if req ≤ stable + 1 ∧ typing = false then ⟨r, PollExitKind.done, tick + 1, last⟩
          else pollLoop sampler prompt req fuel (tick + 1) (if typing then 0 else stable + 1) last
        else
          -- new response text detected: record it, reset stableCount
          pollLoop sampler prompt req fuel (tick + 1) 0 r
      | none => pollLoop sampler prompt req fuel (tick + 1) (if typing then 0 else stable) last

/-- Options of a poll session (ms). -/
structure PollOptions where
  timeout : Nat
  interval : Nat
  deriving DecidableEq, Repr

/-- `pollForClaudeResponse(requestId, originalPrompt, options)`.  `skipPolling`
models the `SKIP_CLAUDE_POLLING` environment flag, `req` the configured
`requiredStableChecks`; the request id is only logged and is dropped. -/
def pollForClaudeResponse (skipPolling : Bool) (sampler : Nat → SampleResult)
    (prompt : List Char) (req : Nat) (opts : PollOptions) : PollResult :=
  if skipPolling then
    ⟨str "Message sent to Claude Desktop successfully. Response polling is disabled.",
      PollExitKind.skipped, 0, []⟩
  else pollLoop sampler prompt req (numTicks opts.timeout opts.interval) 0 0 []

/-- The string `c` is a candidate the extractor produced from some sample the
sampler delivered (under JS truthiness, so never the empty string). -/
def candidateFrom (sampler : Nat → SampleResult) (prompt c : List Char) : Prop :=
  ∃ n t, sampler n = SampleResult.ok t ∧ toTruthy (extractClaudeResponse t prompt) = some c

/-! ## Script Runner (`runAppleScript`, src/utils/applescript.ts) -/

/-- Outcome the underlying `run-applescript` execution would produce at a
given attempt: stdout on success, or the thrown error message together with
the JS `error.code` string (for example `ETIMEDOUT`). -/
inductive ExecOutcome where
  | ok (stdout : List Char)
  | fail (message : List Char) (code : Option (List Char))
  deriving DecidableEq, Repr

/-- An error as caught by the retry loop: from validation (its `code` is the
`INVALID_INPUT` code string) or from execution. -/
structure CaughtErr where
  message : List Char
  code : Option (List Char)
  deriving DecidableEq, Repr

/-- Execution budget of one `runAppleScript` call. -/
structure RunOptions where
  timeout : Nat
  retries : Nat
  retryDelay : Nat
  deriving DecidableEq, Repr

/-- The trace of one `runAppleScript` call: how many underlying executions
were attempted, the sleeps between attempts, and the final result. -/
structure RunTrace where
  execAttempts : Nat
  delays : List Nat
  result : Except ModelError (List Char)
  deriving Repr

/-- The regex `/\((\d+)\)$/`: an error number in trailing parentheses. -/
def parseTrailingErrNum (msg : List Char) : Option Nat :=
  match msg.reverse with
  | ')' :: rest =>
    let ds := rest.takeWhile Char.isDigit
    if ds = [] then none
    else
      match rest.drop ds.length with
      | '(' :: _ => some (ds.reverse.foldl (fun acc c => acc * 10 + (c.toNat - 48)) 0)
      | _ => none
  | _ => none

/-- The parsed error number as the source attaches it: `if (n)` drops 0. -/
def truthyErrNum : Option Nat → Option Nat
  | some 0 => none
  | x => x

/-- The final-attempt classification of `runAppleScript`: `ETIMEDOUT` or a
message mentioning `timeout` → timeout; a keystroke-permission message →
permission denied; anything else → execution failed. -/
def classifyRunErr (e : CaughtErr) : ErrCode :=
  if e.code = some (str "ETIMEDOUT") ∨ containsSub e.message (str "timeout") then
    ErrCode.APPLESCRIPT_TIMEOUT
  else if containsSub e.message (str "is not allowed to send keystrokes") then
    ErrCode.APPLESCRIPT_PERMISSION_DENIED
  else ErrCode.APPLESCRIPT_EXECUTION_FAILED

/-- The wrapped `AppleScriptError` thrown once the final attempt fails. -/
def wrapRunFailure (retries : Nat) (e : CaughtErr) : ModelError :=
  ⟨classifyRunErr e,
    str "AppleScript execution failed after " ++ (Nat.repr retries).data ++
      str " attempts: " ++ e.message⟩

/-- The `for (attempt = 1; attempt <= retries; attempt++)` loop.  Validation
runs INSIDE the try of every iteration, so its throw is caught and retried
like an execution failure (see the source, lines 86-101). -/
def runLoop (script : List Char) (retries retryDelay : Nat) (execf : Nat → ExecOutcome) :
    Nat → Nat → Nat → List Nat → RunTrace
  | 0, _, execCount, delays =>
    -- the loop was never entered (retries = 0): the trailing throw
    ⟨execCount, delays,
      Except.error ⟨ErrCode.APPLESCRIPT_EXECUTION_FAILED, str "AppleScript execution failed"⟩⟩
  | remaining + 1, attempt, execCount, delays =>
    let step : Except CaughtErr (List Char) × Nat :=
      if trimList script = [] then
        (Except.error ⟨str "Script cannot be empty", some (str "INVALID_INPUT")⟩, execCount)
      else if 50000 < script.length then
        (Except.error ⟨str "Script too long", some (str "INVALID_INPUT")⟩, execCount)
      else
        match execf attempt with
        | ExecOutcome.ok out => (Except.ok (trimList out), execCount + 1)
        | ExecOutcome.fail msg c => (Except.error ⟨msg, c⟩, execCount + 1)
    match step with
    | (Except.ok res, ec) => ⟨ec, delays, Except.ok res⟩
    | (Except.error e, ec) =>
      if attempt = retries then ⟨ec, delays, Except.error (wrapRunFailure retries e)⟩
      else runLoop script retries retryDelay execf remaining (attempt + 1) ec (delays ++ [retryDelay])

/-- `runAppleScript(script, options)` against an execution oracle. -/
def runAppleScript (script : List Char) (opts : RunOptions) (execf : Nat → ExecOutcome) : RunTrace :=
  runLoop script opts.retries opts.retryDelay execf opts.retries 1 0 []

/-! ## Prompt submission flow (`askClaude`, src/tools/claude-desktop.ts) -/

/-- Outcome of the main submission script: success (it then reached its
`set the clipboard to "<escaped prompt>"` step), or a thrown error with the
underlying message, JS error code, and whether the script had already set the
clipboard before failing. -/
inductive MainOutcome where
  | ok
  | fail (message : List Char) (code : Option (List Char)) (clipboardSet : Bool)

/-- The script-runner invocations `askClaude` can make, in order. -/
inductive ScriptTag where
  | saveClipboard
  | mainSubmit
  | pollSample (tick : Nat)
  | restoreClipboard
  deriving DecidableEq, Repr

/-- The environment of one `askClaude` call: the clipboard text at entry and
the oracles for every OS interaction. -/
structure AskEnv where
  clipboard0 : List Char
  saveThrows : Bool
  mainOutcome : MainOutcome
  sampler : Nat → SampleResult
  restoreThrows : Bool
  skipPolling : Bool

/-- Observable outcome of `askClaude`: the returned string or thrown error,
the clipboard text at exit, and the script-runner invocations made. -/
structure AskOutcome where
  result : Except ModelError (List Char)
  clipboardFinal : List Char
  scriptsRun : List ScriptTag

/-- `config.limits.maxPromptLength`. -/
def maxPromptLength : Nat := 10000

/-- `config.limits.maxConversationIdLength`. -/
def maxConversationIdLength : Nat := 100

/-- `Prompt too long (n chars, max 10000)`. -/
def promptTooLongMessage (n : Nat) : List Char :=
  str "Prompt too long (" ++ (Nat.repr n).data ++ str " chars, max 10000)"

/-- `conversationId && conversationId.length > config.limits.maxConversationIdLength`. -/
def convIdTooLong : Option (List Char) → Bool
  | some c => decide (maxConversationIdLength < c.length)
  | none => false

/-- The per-error-path epilogue of `askClaude`: restore the clipboard only
when the saved snapshot is non-empty (a failed restore leaves the clipboard
as the main script left it), then classify the error by the parsed
AppleScript error number or message substrings. -/
def askClaudeFailure (env : AskEnv) (origClip escapedOrigClip clipAfterMain : List Char)
    (scripts : List ScriptTag) (wrapped : ModelError) (errNum : Option Nat) : AskOutcome :=
  ⟨Except.error
      (if errNum = some 1001 ∨ containsSub wrapped.message (str "Claude Desktop is not running") then
        ⟨ErrCode.CLAUDE_NOT_RUNNING, str "Claude Desktop is not running"⟩
      else if errNum = some 1002 ∨ containsSub wrapped.message (str "No Claude window available") then
        ⟨ErrCode.CLAUDE_WINDOW_NOT_FOUND, str "No Claude window found"⟩
      else wrapped),
    (if origClip ≠ [] then
      (if env.restoreThrows then clipAfterMain else appleScriptUnquote escapedOrigClip)
    else clipAfterMain),
    (if origClip ≠ [] then scripts ++ [ScriptTag.restoreClipboard] else scripts)⟩

/-- `askClaude(prompt, conversationId, pollingOptions)`.  Validation, then the
clipboard-save script, then escaping of the saved snapshot (which can throw
OUTSIDE the try/catch), then the main submission script, the poll loop, and
the clipboard restore on both exit paths.  The submission script body is
OS-side payload; its effect of setting the clipboard to the escaped prompt
literal is modelled through `appleScriptUnquote`. -/
def askClaude (env : AskEnv) (prompt : List Char) (conversationId : Option (List Char))
    (timeout interval req : Nat) : AskOutcome :=
  if trimList prompt = [] then
    ⟨Except.error ⟨ErrCode.VALIDATION_FAILED, str "Prompt cannot be empty"⟩, env.clipboard0, []⟩
  else if maxPromptLength < prompt.length then
    ⟨Except.error ⟨ErrCode.VALIDATION_FAILED, promptTooLongMessage prompt.length⟩,
      env.clipboard0, []⟩
  else if convIdTooLong conversationId then
    ⟨Except.error ⟨ErrCode.VALIDATION_FAILED, str "Conversation ID too long (max 100 chars)"⟩,
      env.clipboard0, []⟩
  else
    match escapeAppleScriptString prompt with
    | Except.error e => ⟨Except.error e, env.clipboard0, []⟩
    | Except.ok escapedPrompt =>
      -- save the original clipboard; a throw is logged and treated as empty
      let originalClipboard := if env.saveThrows then [] else env.clipboard0
      match (if originalClipboard ≠ [] then escapeAppleScriptString originalClipboard
             else Except.ok []) with
      | Except.error e => ⟨Except.error e, env.clipboard0, [ScriptTag.saveClipboard]⟩
      | Except.ok escapedOriginalClipboard =>
        match env.mainOutcome with
        | MainOutcome.ok =>
          let clipAfterMain := appleScriptUnquote escapedPrompt
          let pr := pollForClaudeResponse env.skipPolling env.sampler prompt req
            ⟨timeout, interval⟩
          let scripts := ScriptTag.saveClipboard :: ScriptTag.mainSubmit ::
            (List.range pr.ticksUsed).map ScriptTag.pollSample
          if originalClipboard ≠ [] then
            ⟨Except.ok pr.result,
              (if env.restoreThrows then clipAfterMain
               else appleScriptUnquote escapedOriginalClipboard),
              scripts ++ [ScriptTag.restoreClipboard]⟩
          else ⟨Except.ok pr.result, clipAfterMain, scripts⟩
        | MainOutcome.fail msg code clipboardSet =>
          -- the main script runs through runAppleScript with retries = 1
          -- (and ErrorHandler.withRetry with maxAttempts = 1): one attempt,
          -- wrapped and classified once
          let wrapped := wrapRunFailure 1 ⟨msg, code⟩
          let clipAfterMain :=
            if clipboardSet then appleScriptUnquote escapedPrompt else env.clipboard0
          askClaudeFailure env originalClipboard escapedOriginalClipboard clipAfterMain
            [ScriptTag.saveClipboard, ScriptTag.mainSubmit] wrapped
            (truthyErrNum (parseTrailingErrNum msg))

/-! ## General lemmas about the string helpers -/

theorem appleScriptUnquote_cons (c : Char) (t : List Char) (hc : c ≠ '\\') :
    appleScriptUnquote (c :: t) = c :: appleScriptUnquote t := by
  cases t with
  | nil => rfl
  | cons d r => simp [appleScriptUnquote, hc]

/-- Restoring an escaped snapshot through an AppleScript string literal gives
back exactly the original text. -/
theorem appleScriptUnquote_escapeChars (s : List Char) :
    appleScriptUnquote (escapeChars s) = s := by
  induction s with
  | nil => rfl
  | cons c rest ih =>
    by_cases h1 : c = '\\'
    · subst h1
      simp [escapeChars, appleScriptUnquote, ih]
    · by_cases h2 : c = '"'
      · subst h2
        simp [escapeChars, appleScriptUnquote, ih]
      · rw [escapeChars, if_neg h1, if_neg h2, appleScriptUnquote_cons c _ h1, ih]

theorem indexOfSub_spec (m : List Char) :
    ∀ (s : List Char) (j : Nat), indexOfSub s m = some j →
      m.isPrefixOf (s.drop j) = true ∧ ∀ i, m.isPrefixOf (s.drop i) = true → j ≤ i := by
  intro s
  induction s with
  | nil =>
    intro j h
    rw [indexOfSub] at h
    split at h
    · next hp =>
      cases h
      exact ⟨hp, fun i _ => Nat.zero_le i⟩
    · exact absurd h (by simp)
  | cons c t ih =>
    intro j h
    rw [indexOfSub] at h
    split at h
    · next hp =>
      cases h
      exact ⟨hp, fun i _ => Nat.zero_le i⟩
    · next hp =>
      obtain ⟨j', hj', hjeq⟩ := Option.map_eq_some'.mp h
      subst hjeq
      refine ⟨by rw [List.drop_succ_cons]; exact (ih j' hj').1, ?_⟩
      intro i hi
      cases i with
      | zero => exact absurd hi (by simpa using hp)
      | succ i' =>
        rw [List.drop_succ_cons] at hi
        exact Nat.succ_le_succ ((ih j' hj').2 i' hi)

theorem indexOfSub_isSome_of (m : List Char) :
    ∀ (s : List Char) (i : Nat), m.isPrefixOf (s.drop i) = true →
      (indexOfSub s m).isSome = true := by
  intro s
  induction s with
  | nil =>
    intro i h
    rw [List.drop_nil] at h
    have hm : m = [] := by
      cases m with
      | nil => rfl
      | cons a as => simp [List.isPrefixOf] at h
    subst hm
    rw [indexOfSub]
    simp [List.isPrefixOf]
  | cons c t ih =>
    intro i h
    rw [indexOfSub]
    split
    · simp
    · next hp =>
      cases i with
      | zero => exact absurd h (by simpa using hp)
      | succ i' =>
        rw [List.drop_succ_cons] at h
        have hs := ih i' h
        cases hx : indexOfSub t m with
        | none => rw [hx] at hs; exact absurd hs (by simp)
        | some v => simp [hx]

/-- `hay.includes(needle)` holds exactly when the needle is an infix. -/
theorem containsSub_eq_true_iff_isInfix (s m : List Char) :
    containsSub s m = true ↔ m <:+: s := by
  constructor
  · intro h
    rw [containsSub] at h
    obtain ⟨j, hj⟩ := Option.isSome_iff_exists.mp h
    have hpre := (indexOfSub_spec m s j hj).1
    obtain ⟨b, hb⟩ := List.isPrefixOf_iff_prefix.mp hpre
    exact ⟨s.take j, b, by rw [List.append_assoc, hb, List.take_append_drop]⟩
  · rintro ⟨a, b, rfl⟩
    rw [containsSub]
    apply indexOfSub_isSome_of m _ a.length
    rw [List.append_assoc, List.drop_left]
    exact List.isPrefixOf_iff_prefix.mpr (List.prefix_append m b)

/-- Trimming yields an infix of the original list. -/
theorem trimList_isInfix (s : List Char) : trimList s <:+: s := by
  have h1 : s.dropWhile isSpaceChar <:+ s := List.dropWhile_suffix _
  have h2 : (s.dropWhile isSpaceChar).reverse.dropWhile isSpaceChar <:+
      (s.dropWhile isSpaceChar).reverse := List.dropWhile_suffix _
  have h3 : ((s.dropWhile isSpaceChar).reverse.dropWhile isSpaceChar).reverse <+:
      s.dropWhile isSpaceChar := by
    rw [← List.reverse_suffix, List.reverse_reverse]
    exact h2
  exact (h3.isInfix).trans h1.isInfix

theorem uiFoldStep_le (s : List Char) (acc : Nat) (u : List Char) :
    uiFoldStep s acc u ≤ acc := by
  rw [uiFoldStep]
  cases h : indexOfSub s u with
  | none => exact Nat.le_refl acc
  | some idx =>
    show (if idx < acc then idx else acc) ≤ acc
    split <;> omega

theorem uiFold_le_init (s : List Char) :
    ∀ (L : List (List Char)) (acc : Nat), uiFold s L acc ≤ acc := by
  intro L
  induction L with
  | nil => intro acc; exact Nat.le_refl acc
  | cons u L ih =>
    intro acc
    rw [uiFold, List.foldl_cons]
    exact Nat.le_trans (ih (uiFoldStep s acc u)) (uiFoldStep_le s acc u)

theorem uiFold_le_of_mem (s : List Char) :
    ∀ (L : List (List Char)) (acc : Nat) (m : List Char) (j : Nat),
      m ∈ L → indexOfSub s m = some j → uiFold s L acc ≤ j := by
  intro L
  induction L with
  | nil => intro acc m j hm _; exact absurd hm (List.not_mem_nil m)
  | cons u L ih =>
    intro acc m j hm hj
    rw [uiFold, List.foldl_cons]
    rcases List.mem_cons.mp hm with rfl | hm'
    · have hstep : uiFoldStep s acc m ≤ j := by
        rw [uiFoldStep, hj]
        show (if j < acc then j else acc) ≤ j
        split <;> omega
      exact Nat.le_trans (uiFold_le_init s L _) hstep
    · exact ih _ m j hm' hj

theorem firstUIElementIndex_le (s m : List Char) (hm : m ∈ uiElements) (j : Nat)
    (hj : indexOfSub s m = some j) : firstUIElementIndex s ≤ j :=
  uiFold_le_of_mem s uiElements s.length m j hm hj

theorem occurrence_lt_length (s m : List Char) (j : Nat) (hm : m ≠ [])
    (h : m.isPrefixOf (s.drop j) = true) : j < s.length := by
  by_contra hge
  rw [Nat.not_lt] at hge
  rw [List.drop_eq_nil_of_le hge] at h
  cases m with
  | nil => exact hm rfl
  | cons a as => simp [List.isPrefixOf] at h

/-- The truncation at the earliest UI marker leaves no marker occurrence in
the candidate: an occurrence inside the kept part would contradict the
minimality of the cut index. -/
theorem truncateAtUI_marker_free (s m : List Char) (hm : m ∈ uiElements) :
    containsSub (truncateAtUI s) m = false := by
  have hmne : m ≠ [] := by
    have hall : ∀ x ∈ uiElements, x ≠ [] := by decide
    exact hall m hm
  by_contra hcon
  rw [Bool.not_eq_false] at hcon
  rw [truncateAtUI] at hcon
  by_cases hk : firstUIElementIndex s < s.length
  · rw [if_pos hk] at hcon
    have hinf2 : m <:+: s.take (firstUIElementIndex s) :=
      ((containsSub_eq_true_iff_isInfix _ m).mp hcon).trans (trimList_isInfix _)
    obtain ⟨a, b, hab⟩ := hinf2
    have hs : a ++ (m ++ (b ++ s.drop (firstUIElementIndex s))) = s := by
      rw [← List.append_assoc, ← List.append_assoc, hab, List.take_append_drop]
    have hocc : m.isPrefixOf (s.drop a.length) = true := by
      rw [← hs, List.drop_left]
      exact List.isPrefixOf_iff_prefix.mpr (List.prefix_append m _)
    obtain ⟨j, hj⟩ := Option.isSome_iff_exists.mp (indexOfSub_isSome_of m s a.length hocc)
    have hmin : j ≤ a.length := (indexOfSub_spec m s j hj).2 a.length hocc
    have hkj : firstUIElementIndex s ≤ j := firstUIElementIndex_le s m hm j hj
    have hlen : a.length + m.length + b.length = firstUIElementIndex s := by
      have hcong := congrArg List.length hab
      rw [List.length_append, List.length_append, List.length_take,
        Nat.min_eq_left (Nat.le_of_lt hk)] at hcong
      omega
    have hmlen : 0 < m.length := List.length_pos.mpr hmne
    omega
  · rw [if_neg hk] at hcon
    rw [containsSub] at hcon
    obtain ⟨j, hj⟩ := Option.isSome_iff_exists.mp hcon
    have hocc := (indexOfSub_spec m s j hj).1
    have hjlt : j < s.length := occurrence_lt_length s m j hmne hocc
    have hkj : firstUIElementIndex s ≤ j := firstUIElementIndex_le s m hm j hj
    rw [Nat.not_lt] at hk
    omega

/-! ## Lemmas about the poll loop -/

/-- Whenever the loop does not return from inside (exit kind other than
`done`), the returned string is the last candidate when non-empty and the
fallback sentinel otherwise — the post-loop code of the source. -/
theorem pollLoop_not_done_result (sampler : Nat → SampleResult) (prompt : List Char) (req : Nat) :
    ∀ (fuel tick stable : Nat) (last : List Char),
      (pollLoop sampler prompt req fuel tick stable last).exitKind ≠ PollExitKind.done →
      (pollLoop sampler prompt req fuel tick stable last).result =
        (if (pollLoop sampler prompt req fuel tick stable last).lastSeen = [] then
          timeoutFallbackMessage prompt
        else (pollLoop sampler prompt req fuel tick stable last).lastSeen) := by
  intro fuel
  induction fuel with
  | zero =>
    intro tick stable last _
    rw [pollLoop, pollFinish]
    by_cases h : last = [] <;> simp [h]
  | succ fuel ih =>
    intro tick stable last h
    rw [pollLoop] at h ⊢
    cases hs : sampler tick with
    | err msg =>
      simp only [hs] at h ⊢
      by_cases hb : containsSub msg (str "Claude process not found") = true
      · rw [if_pos hb] at h ⊢
        rw [pollFinish]
        by_cases hl : last = [] <;> simp [hl]
      · rw [if_neg hb] at h ⊢
        exact ih _ _ _ h
    | ok currentText =>
      simp only [hs] at h ⊢
      cases hx : toTruthy (extractClaudeResponse currentText prompt) with
      | some r =>
        simp only [hx] at h ⊢
        by_cases hr : r = last
        · rw [if_pos hr] at h ⊢
          by_cases hcond : req ≤ stable + 1 ∧ typingIndicatorPresent currentText = false
          · rw [if_pos hcond] at h
            exact absurd rfl h
          · rw [if_neg hcond] at h ⊢
            exact ih _ _ _ h
        · rw [if_neg hr] at h ⊢
          exact ih _ _ _ h
      | none =>
        simp only [hx] at h ⊢
        exact ih _ _ _ h

/-- The final `lastResponseText` is empty or a candidate the extractor
actually produced from one of the delivered samples. -/
theorem pollLoop_lastSeen_from (sampler : Nat → SampleResult) (prompt : List Char) (req : Nat) :
    ∀ (fuel tick stable : Nat) (last : List Char),
      (last = [] ∨ candidateFrom sampler prompt last) →
      ((pollLoop sampler prompt req fuel tick stable last).lastSeen = [] ∨
        candidateFrom sampler prompt (pollLoop sampler prompt req fuel tick stable last).lastSeen) := by
  intro fuel
  induction fuel with
  | zero =>
    intro tick stable last hinv
    rw [pollLoop, pollFinish]
    by_cases h : last = []
    · simp [h]
    · simpa [h] using hinv
  | succ fuel ih =>
    intro tick stable last hinv
    rw [pollLoop]
    cases hs : sampler tick with
    | err msg =>
      simp only
      by_cases hb : containsSub msg (str "Claude process not found") = true
      · rw [if_pos hb, pollFinish]
        by_cases h : last = []
        · simp [h]
        · simpa [h] using hinv
      · rw [if_neg hb]
        exact ih _ _ _ hinv
    | ok currentText =>
      simp only
      cases hx : toTruthy (extractClaudeResponse currentText prompt) with
      | some r =>
        simp only
        by_cases hr : r = last
        · rw [if_pos hr]
          by_cases hcond : req ≤ stable + 1 ∧ typingIndicatorPresent currentText = false
          · rw [if_pos hcond]
            simpa using hinv
          · rw [if_neg hcond]
            exact ih _ _ _ hinv
        · rw [if_neg hr]
          exact ih _ _ _ (Or.inr ⟨tick, currentText, hs, hx⟩)
      | none =>
        simp only
        exact ih _ _ _ hinv

/-- When every delivered sample contains the generating glyph, the loop can
never return from inside (the inner return requires the absence of every
typing indicator), and when additionally no sample yields a candidate the
final result is the fallback sentinel. -/
theorem pollLoop_glyph (sampler : Nat → SampleResult) (prompt : List Char) (req : Nat)
    (hok : ∀ n, ∃ t, sampler n = SampleResult.ok t ∧ containsSub t (str "▍") = true) :
    ∀ (fuel tick stable : Nat) (last : List Char),
      (pollLoop sampler prompt req fuel tick stable last).exitKind = PollExitKind.timedOut ∧
      ((∀ n t, sampler n = SampleResult.ok t →
          toTruthy (extractClaudeResponse t prompt) = none) →
        last = [] →
        (pollLoop sampler prompt req fuel tick stable last).result =
          timeoutFallbackMessage prompt) := by
  intro fuel
  induction fuel with
  | zero =>
    intro tick stable last
    constructor
    · rw [pollLoop, pollFinish]
      by_cases h : last = [] <;> simp [h]
    · intro _ hlast
      rw [pollLoop, pollFinish, if_pos hlast]
  | succ fuel ih =>
    intro tick stable last
    obtain ⟨t, hst, hglyph⟩ := hok tick
    have htyping : typingIndicatorPresent t = true := by
      rw [typingIndicatorPresent, hglyph]
      rfl
    constructor
    · rw [pollLoop]
      simp only [hst]
      cases hx : toTruthy (extractClaudeResponse t prompt) with
      | some r =>
        simp only
        by_cases hr : r = last
        · rw [if_pos hr, if_neg (by simp [htyping])]
          exact (ih _ _ _).1
        · rw [if_neg hr]
          exact (ih _ _ _).1
      | none =>
        simp only
        exact (ih _ _ _).1
    · intro hnone hlast
      have hxnone : toTruthy (extractClaudeResponse t prompt) = none := hnone tick t hst
      rw [pollLoop]
      simp only [hst, hxnone]
      exact (ih _ _ _).2 hnone hlast

/-! ## Claims -/

/-- C1: with requiredStableChecks = 2, a sampler that keeps delivering the
same dump containing the prompt followed by `Hello! 42` (scenario A: interval
100ms, timeout 5000ms) makes the poller record the candidate at tick 0,
confirm it on the two consecutive ticks 1 and 2, and return `Hello! 42` in
`Done` at the end of tick 2 — elapsed (ticksUsed - 1) * interval = 200ms. -/
theorem c1_scenario_a_two_stable_ticks :
    pollForClaudeResponse false
        (fun _ => SampleResult.ok (str "what is the answer\n\nHello! 42"))
        (str "what is the answer") 2 ⟨5000, 100⟩ =
      ⟨str "Hello! 42", PollExitKind.done, 3, str "Hello! 42"⟩ ∧
    ((pollForClaudeResponse false
        (fun _ => SampleResult.ok (str "what is the answer\n\nHello! 42"))
        (str "what is the answer") 2 ⟨5000, 100⟩).ticksUsed - 1) * 100 ≤ 200 :=
  ⟨rfl, by decide⟩

/-- C2: the sampler reports the target process gone by RETURNING the sentinel
string `Error: Claude process not found`; the poller treats that returned
string as a no-candidate tick and polls for all 5 ticks of the 500ms/100ms
session, returning the timeout fallback — it does not abort.  The abort
branch fires only when the very same text arrives as a THROWN error message,
in which case the loop does stop within one tick. -/
theorem c2_sentinel_does_not_abort :
    (pollForClaudeResponse false
        (fun _ => SampleResult.ok (str "Error: Claude process not found"))
        (str "what is the answer") 2 ⟨500, 100⟩ =
      ⟨timeoutFallbackMessage (str "what is the answer"), PollExitKind.timedOut, 5, []⟩) ∧
    (pollForClaudeResponse false
        (fun _ => SampleResult.err (str "Error: Claude process not found"))
        (str "what is the answer") 2 ⟨500, 100⟩ =
      ⟨timeoutFallbackMessage (str "what is the answer"), PollExitKind.aborted, 1, []⟩) :=
  ⟨rfl, rfl⟩

/-- C4: an empty script is NOT rejected immediately as InvalidInput: the
validation throw is caught by the retry loop, so with retries = 3 the runner
sleeps twice for retryDelay and finally raises an error classified
APPLESCRIPT_EXECUTION_FAILED whose message depends on the retry count —
although the underlying execution is indeed never attempted (0 exec attempts
even against an oracle that would succeed). -/
theorem c4_empty_script_retried_and_reclassified :
    (runAppleScript (str "") ⟨30000, 3, 1000⟩ (fun _ => ExecOutcome.ok (str "unused")) =
      ⟨0, [1000, 1000],
        Except.error ⟨ErrCode.APPLESCRIPT_EXECUTION_FAILED,
          str "AppleScript execution failed after 3 attempts: Script cannot be empty"⟩⟩) ∧
    (runAppleScript (str "") ⟨30000, 1, 1000⟩ (fun _ => ExecOutcome.ok (str "unused")) =
      ⟨0, [],
        Except.error ⟨ErrCode.APPLESCRIPT_EXECUTION_FAILED,
          str "AppleScript execution failed after 1 attempts: Script cannot be empty"⟩⟩) :=
  ⟨rfl, rfl⟩

/-- C5 counterexample: with raw text `abab` and prompt `ab` the extractor
returns the candidate `ab`, which contains the original prompt as a
substring — the containment property fails as stated. -/
theorem c5_counterexample_prompt_contained :
    extractClaudeResponse (str "abab") (str "ab") = some (str "ab") ∧
    containsSub (str "ab") (str "ab") = true :=
  ⟨rfl, rfl⟩

/-- C5 amended: whenever the extractor returns through the
prompt-localization path (the prompt is found in the cleaned text and the
truncated candidate is non-empty), the returned candidate contains no
configured chrome marker string.  (It may still contain the prompt when the
prompt occurs twice, and the full-text fallback path filters nothing.) -/
theorem c5_amended_no_marker_in_prompt_path (fullText prompt : List Char) (i : Nat)
    (h0 : fullText ≠ [])
    (h1 : (str "Error:").isPrefixOf fullText = false)
    (h2 : indexOfSub (cleanText fullText) prompt = some i)
    (h3 : promptPathResult (cleanText fullText) prompt i ≠ []) :
    extractClaudeResponse fullText prompt =
      some (promptPathResult (cleanText fullText) prompt i) ∧
    ∀ m ∈ uiElements,
      containsSub (promptPathResult (cleanText fullText) prompt i) m = false := by
  constructor
  · simp [extractClaudeResponse, h0, h1, h2, h3]
  · intro m hm
    rw [promptPathResult]
    exact truncateAtUI_marker_free _ m hm

/-- C5 witness: on `xabyzCopyw` with prompt `ab` the extractor takes the
prompt path, returns the truncated candidate, and that candidate is free of
the `Copy` marker. -/
theorem c5_witness_concrete :
    extractClaudeResponse (str "xabyzCopyw") (str "ab") =
      some (promptPathResult (cleanText (str "xabyzCopyw")) (str "ab") 1) ∧
    containsSub (promptPathResult (cleanText (str "xabyzCopyw")) (str "ab") 1)
      (str "Copy") = false := by
  have h := c5_amended_no_marker_in_prompt_path (str "xabyzCopyw") (str "ab") 1
    (by decide) (by decide) (by decide) (by decide)
  exact ⟨h.1, h.2 (str "Copy") (by decide)⟩

/-- C7 counterexample: with every sample containing the generating glyph but
also an extractable candidate (prompt followed by a partial reply and the
glyph), the 500ms/100ms session runs to timeout and returns the PARTIAL
candidate — not the timeout fallback sentinel the claim promises. -/
theorem c7_counterexample_partial_returned :
    pollForClaudeResponse false
        (fun _ => SampleResult.ok (str "what is the answer\n\npartial reply▍"))
        (str "what is the answer") 2 ⟨500, 100⟩ =
      ⟨str "partial reply▍", PollExitKind.timedOut, 5, str "partial reply▍"⟩ ∧
    str "partial reply▍" ≠ timeoutFallbackMessage (str "what is the answer") :=
  ⟨rfl, by decide⟩

/-- C7 amended: when every sample contains the generating glyph the session
never reaches Done and exits by timeout; it returns the fallback sentinel
provided the extractor yields no candidate from any sample (otherwise the
last partial candidate is returned instead). -/
theorem c7_amended_glyph_runs_to_timeout (sampler : Nat → SampleResult)
    (prompt : List Char) (req timeout interval : Nat)
    (hok : ∀ n, ∃ t, sampler n = SampleResult.ok t ∧ containsSub t (str "▍") = true) :
    (pollForClaudeResponse false sampler prompt req ⟨timeout, interval⟩).exitKind =
      PollExitKind.timedOut ∧
    ((∀ n t, sampler n = SampleResult.ok t →
        toTruthy (extractClaudeResponse t prompt) = none) →
      (pollForClaudeResponse false sampler prompt req ⟨timeout, interval⟩).result =
        timeoutFallbackMessage prompt) := by
  have hpoll : pollForClaudeResponse false sampler prompt req ⟨timeout, interval⟩ =
      pollLoop sampler prompt req (numTicks timeout interval) 0 0 [] := by
    rw [pollForClaudeResponse]
    simp [numTicks]
  rw [hpoll]
  have hg := pollLoop_glyph sampler prompt req hok (numTicks timeout interval) 0 0 []
  exact ⟨hg.1, fun hn => hg.2 hn rfl⟩

/-- C7 witness: the constant glyph-only sample yields no candidate, so the
500ms/100ms session times out onto the fallback sentinel. -/
theorem c7_witness_concrete :
    (pollForClaudeResponse false (fun _ => SampleResult.ok (str "▍"))
        (str "what is the answer") 2 ⟨500, 100⟩).exitKind = PollExitKind.timedOut ∧
    (pollForClaudeResponse false (fun _ => SampleResult.ok (str "▍"))
        (str "what is the answer") 2 ⟨500, 100⟩).result =
      timeoutFallbackMessage (str "what is the answer") := by
  have h := c7_amended_glyph_runs_to_timeout (fun _ => SampleResult.ok (str "▍"))
    (str "what is the answer") 2 500 100 (fun _ => ⟨str "▍", rfl, rfl⟩)
  exact ⟨h.1, h.2 (fun n t ht => by cases ht; rfl)⟩

/-- C6: a session that exits by timeout returns the last-seen candidate when
non-empty (and that candidate was genuinely produced by the extractor from a
delivered sample) and otherwise the fallback sentinel stating the prompt was
sent; in the model the caller always receives a string. -/
theorem c6_timeout_returns_last_or_sentinel (sampler : Nat → SampleResult)
    (prompt : List Char) (req : Nat) (opts : PollOptions)
    (h : (pollForClaudeResponse false sampler prompt req opts).exitKind =
      PollExitKind.timedOut) :
    ((pollForClaudeResponse false sampler prompt req opts).lastSeen = [] →
      (pollForClaudeResponse false sampler prompt req opts).result =
        timeoutFallbackMessage prompt) ∧
    ((pollForClaudeResponse false sampler prompt req opts).lastSeen ≠ [] →
      (pollForClaudeResponse false sampler prompt req opts).result =
        (pollForClaudeResponse false sampler prompt req opts).lastSeen ∧
      candidateFrom sampler prompt
        (pollForClaudeResponse false sampler prompt req opts).lastSeen) := by
  have hpoll : pollForClaudeResponse false sampler prompt req opts =
      pollLoop sampler prompt req (numTicks opts.timeout opts.interval) 0 0 [] := by
    rw [pollForClaudeResponse]
    simp
  rw [hpoll] at h ⊢
  have hnd : (pollLoop sampler prompt req (numTicks opts.timeout opts.interval) 0 0
      []).exitKind ≠ PollExitKind.done := by
    rw [h]
    simp
  have hres := pollLoop_not_done_result sampler prompt req
    (numTicks opts.timeout opts.interval) 0 0 [] hnd
  have hfrom := pollLoop_lastSeen_from sampler prompt req
    (numTicks opts.timeout opts.interval) 0 0 [] (Or.inl rfl)
  constructor
  · intro hempty
    rw [hres, if_pos hempty]
  · intro hne
    refine ⟨by rw [hres, if_neg hne], ?_⟩
    rcases hfrom with h1 | h1
    · exact absurd h1 hne
    · exact h1

/-- C6 witness: empty samples yield no candidate; the 200ms/100ms session
times out and the result is the fallback sentinel. -/
theorem c6_witness_concrete :
    (pollForClaudeResponse false (fun _ => SampleResult.ok []) (str "hi") 2
        ⟨200, 100⟩).result = timeoutFallbackMessage (str "hi") :=
  (c6_timeout_returns_last_or_sentinel (fun _ => SampleResult.ok []) (str "hi") 2
    ⟨200, 100⟩ rfl).1 rfl

/-- C3 counterexample: with an EMPTY pre-operation clipboard, a successful
guarded submission leaves the clipboard holding the injected prompt (`hi`),
not the original empty content — the restore step is skipped because the
source guards it with a truthiness check on the saved snapshot. -/
theorem c3_counterexample_empty_clipboard_not_restored :
    (askClaude ⟨[], false, MainOutcome.ok, (fun _ => SampleResult.ok []), false, false⟩
        (str "hi") none 0 100 2).clipboardFinal = str "hi" ∧
    str "hi" ≠ ([] : List Char) :=
  ⟨rfl, by decide⟩

/-- C3 amended: whenever the pre-operation clipboard text is non-empty, at
most 10000 characters, readable, and the restore script succeeds, the
clipboard after `askClaude` equals the pre-operation content bit for bit, on
the normal-return path and on every thrown-error path alike. -/
theorem c3_amended_nonempty_clipboard_restored (clip prompt : List Char)
    (cid : Option (List Char)) (sampler : Nat → SampleResult) (mo : MainOutcome)
    (timeout interval req : Nat)
    (hclip : clip ≠ []) (hcliplen : clip.length ≤ 10000)
    (hp1 : trimList prompt ≠ []) (hp2 : prompt.length ≤ 10000)
    (hcid : convIdTooLong cid = false) :
    (askClaude ⟨clip, false, mo, sampler, false, false⟩ prompt cid timeout interval
      req).clipboardFinal = clip := by
  rw [askClaude, if_neg hp1]
  rw [if_neg (show ¬(maxPromptLength < prompt.length) from Nat.not_lt.mpr hp2)]
  rw [if_neg (show ¬(convIdTooLong cid = true) by rw [hcid]; simp)]
  rw [show escapeAppleScriptString prompt = Except.ok (escapeChars prompt) from by
    rw [escapeAppleScriptString, if_neg (Nat.not_lt.mpr hp2)]]
  simp only
  rw [show ((if (⟨clip, false, mo, sampler, false, false⟩ : AskEnv).saveThrows then []
      else (⟨clip, false, mo, sampler, false, false⟩ : AskEnv).clipboard0) = clip) from rfl]
  rw [show ((if clip ≠ [] then escapeAppleScriptString clip else Except.ok []) =
      Except.ok (escapeChars clip)) from by
    rw [if_pos hclip, escapeAppleScriptString, if_neg (Nat.not_lt.mpr hcliplen)]]
  cases mo with
  | ok =>
    simp only
    rw [if_pos hclip]
    simp only
    exact appleScriptUnquote_escapeChars clip
  | fail msg code clipboardSet =>
    simp only [askClaudeFailure]
    rw [if_pos hclip]
    exact appleScriptUnquote_escapeChars clip

/-- C3 witness: the clipboard text `keep` is restored both after a successful
run and after a failing main script. -/
theorem c3_witness_concrete :
    (askClaude ⟨str "keep", false, MainOutcome.ok, (fun _ => SampleResult.ok []), false, false⟩
        (str "hi") none 0 100 2).clipboardFinal = str "keep" ∧
    (askClaude ⟨str "keep", false, MainOutcome.fail (str "boom") none true,
        (fun _ => SampleResult.ok []), false, false⟩
        (str "hi") none 0 100 2).clipboardFinal = str "keep" := by
  constructor
  · exact c3_amended_nonempty_clipboard_restored (str "keep") (str "hi") none
      (fun _ => SampleResult.ok []) MainOutcome.ok 0 100 2
      (by decide) (by decide) (by decide) (by decide) rfl
  · exact c3_amended_nonempty_clipboard_restored (str "keep") (str "hi") none
      (fun _ => SampleResult.ok []) (MainOutcome.fail (str "boom") none true) 0 100 2
      (by decide) (by decide) (by decide) (by decide) rfl

/-- C8: with retries = 3 and a fixed retryDelay, an execution that fails on
attempts 1 and 2 and succeeds on attempt 3 makes `runAppleScript` return the
(trimmed) successful result after exactly 3 execution attempts, sleeping the
constant retryDelay before each of the two retries — no backoff multiplier. -/
theorem c8_three_attempts_constant_delay (script r m1 m2 : List Char)
    (c1 c2 : Option (List Char)) (timeout retryDelay : Nat) (execf : Nat → ExecOutcome)
    (hv1 : trimList script ≠ []) (hv2 : script.length ≤ 50000)
    (h1 : execf 1 = ExecOutcome.fail m1 c1) (h2 : execf 2 = ExecOutcome.fail m2 c2)
    (h3 : execf 3 = ExecOutcome.ok r) :
    runAppleScript script ⟨timeout, 3, retryDelay⟩ execf =
      ⟨3, [retryDelay, retryDelay], Except.ok (trimList r)⟩ := by
  rw [runAppleScript]
  rw [runLoop]
  simp only [if_neg hv1, if_neg (Nat.not_lt.mpr hv2), h1]
  rw [if_neg (by decide : ¬(1 = 3))]
  rw [runLoop]
  simp only [if_neg hv1, if_neg (Nat.not_lt.mpr hv2), h2]
  rw [if_neg (by decide : ¬(2 = 3))]
  rw [runLoop]
  simp only [if_neg hv1, if_neg (Nat.not_lt.mpr hv2), h3]
  rfl

/-- C8 witness: a concrete script and oracle failing twice then succeeding. -/
theorem c8_witness_concrete :
    runAppleScript (str "return 1") ⟨30000, 3, 10⟩
        (fun n => if n ≤ 2 then ExecOutcome.fail (str "boom") none
                  else ExecOutcome.ok (str "ok")) =
      ⟨3, [10, 10], Except.ok (str "ok")⟩ :=
  c8_three_attempts_constant_delay (str "return 1") (str "ok") (str "boom") (str "boom")
    none none 30000 10 _ (by decide) (by decide) rfl rfl rfl

/-- C9: an empty (or whitespace-only) prompt makes `askClaude` throw the
validation error before anything else happens: no script-runner invocation
occurs (not even the clipboard save) and the clipboard is untouched. -/
theorem c9_empty_prompt_validation_first (env : AskEnv) (prompt : List Char)
    (cid : Option (List Char)) (timeout interval req : Nat)
    (h : trimList prompt = []) :
    askClaude env prompt cid timeout interval req =
      ⟨Except.error ⟨ErrCode.VALIDATION_FAILED, str "Prompt cannot be empty"⟩,
        env.clipboard0, []⟩ := by
  rw [askClaude, if_pos h]

/-- C9 witness: the whitespace-only prompt. -/
theorem c9_witness_concrete :
    askClaude ⟨str "before", false, MainOutcome.ok, (fun _ => SampleResult.ok []), false, false⟩
        (str "   ") none 30000 1500 2 =
      ⟨Except.error ⟨ErrCode.VALIDATION_FAILED, str "Prompt cannot be empty"⟩,
        str "before", []⟩ :=
  c9_empty_prompt_validation_first
    ⟨str "before", false, MainOutcome.ok, (fun _ => SampleResult.ok []), false, false⟩
    (str "   ") none 30000 1500 2 (by decide)

/-- C10: a well-formed request (non-empty prompt within the limit) still
fails with the INVALID_INPUT code whenever the pre-existing clipboard text is
longer than 10000 characters: escaping the saved snapshot throws before the
prompt is ever submitted — only the clipboard-save script has run. -/
theorem c10_long_clipboard_rejects_request (clip prompt : List Char)
    (sampler : Nat → SampleResult) (mo : MainOutcome) (timeout interval req : Nat)
    (hclip : 10000 < clip.length) (hp1 : trimList prompt ≠ [])
    (hp2 : prompt.length ≤ 10000) :
    askClaude ⟨clip, false, mo, sampler, false, false⟩ prompt none timeout interval req =
      ⟨Except.error ⟨ErrCode.INVALID_INPUT, stringTooLongMessage clip.length⟩, clip,
        [ScriptTag.saveClipboard]⟩ := by
  have hclipne : clip ≠ [] := by
    intro he
    rw [he] at hclip
    simp at hclip
  rw [askClaude, if_neg hp1]
  rw [if_neg (show ¬(maxPromptLength < prompt.length) from Nat.not_lt.mpr hp2)]
  rw [if_neg (show ¬(convIdTooLong (none : Option (List Char)) = true) by
    rw [convIdTooLong]; simp)]
  rw [show escapeAppleScriptString prompt = Except.ok (escapeChars prompt) from by
    rw [escapeAppleScriptString, if_neg (Nat.not_lt.mpr hp2)]]
  simp only
  rw [show ((if (⟨clip, false, mo, sampler, false, false⟩ : AskEnv).saveThrows then []
      else (⟨clip, false, mo, sampler, false, false⟩ : AskEnv).clipboard0) = clip) from rfl]
  rw [show ((if clip ≠ [] then escapeAppleScriptString clip else Except.ok []) =
      Except.error ⟨ErrCode.INVALID_INPUT, stringTooLongMessage clip.length⟩) from by
    rw [if_pos hclipne, escapeAppleScriptString, if_pos hclip]]

/-- C10 witness: a 10001-character clipboard blocks the valid request `hi`. -/
theorem c10_witness_concrete :
    askClaude ⟨List.replicate 10001 'a', false, MainOutcome.ok,
        (fun _ => SampleResult.ok []), false, false⟩ (str "hi") none 0 100 2 =
      ⟨Except.error ⟨ErrCode.INVALID_INPUT, stringTooLongMessage 10001⟩,
        List.replicate 10001 'a', [ScriptTag.saveClipboard]⟩ := by
  have h := c10_long_clipboard_rejects_request (List.replicate 10001 'a') (str "hi")
    (fun _ => SampleResult.ok []) MainOutcome.ok 0 100 2
    (by rw [List.length_replicate]; decide) (by decide) (by decide)
  rw [List.length_replicate] at h
  exact h
